import Mathlib

/-!
# Shallow embedding of the todo-list application

This file embeds the request handlers of `backend/server.js` and the
client-side filtering of `frontend/app.js` as pure Lean functions, and
proves the contracts stated in the specification about them.

The storage layer is the table created by `initializeDatabase`:

  CREATE TABLE IF NOT EXISTS todos (
    id INT AUTO_INCREMENT PRIMARY KEY,
    title VARCHAR(500) NOT NULL,
    completed BOOLEAN DEFAULT FALSE,
    created_at TIMESTAMP DEFAULT CURRENT_TIMESTAMP
  )

A database state is the list of rows together with the next
`AUTO_INCREMENT` value.  Timestamps are modelled as natural numbers and
the current time is passed explicitly to the operations that consult the
clock.  The `VARCHAR(500)` column bounds stored titles at 500 characters:
under MariaDB's default strict mode (`STRICT_TRANS_TABLES`, the default
since MariaDB 10.2.4) an INSERT or UPDATE with a longer value makes the
query fail, which each handler's `catch` block turns into a 500 response.
-/

namespace TodoApp

/-- JavaScript's `String.prototype.trim` on the underlying character list:
drop whitespace from the front, then from the back. -/
def trimChars (l : List Char) : List Char :=
  ((l.dropWhile Char.isWhitespace).reverse.dropWhile Char.isWhitespace).reverse

/-- JavaScript's `title.trim()` as used by the handlers. -/
def jsTrim (s : String) : String :=
  ⟨trimChars s.data⟩

/-- One row of the `todos` table (equally, one JSON item as the handlers
serialise it: `{ id, title, completed, created_at }`). -/
structure Item where
  id : Nat
  title : String
  completed : Bool
  created_at : Nat
deriving DecidableEq, Repr

/-- The state of the `todos` table: its rows plus the next
`AUTO_INCREMENT` identifier. -/
structure DBState where
  rows : List Item
  nextId : Nat
deriving DecidableEq, Repr

/-- The column size of `title VARCHAR(500)` in `initializeDatabase`. -/
def titleColumnLimit : Nat := 500

/-- An HTTP response as produced by the handlers: a status code together
with the JSON body (a single item, a list of items, a `message` object,
or an `error` object). -/
inductive Response where
  | item : Nat → Item → Response
  | items : Nat → List Item → Response
  | message : Nat → String → Response
  | error : Nat → String → Response
deriving DecidableEq, Repr

/-- `GET /api/todos`: `SELECT id, title, completed, created_at FROM todos
ORDER BY created_at DESC`.  The sort is by creation timestamp,
descending. -/
def getTodos (db : DBState) : Response :=
  .items 200 (db.rows.mergeSort (fun a b => decide (b.created_at ≤ a.created_at)))

/-- `GET /api/todos/:id`: `SELECT ... WHERE id = ?`; 404 when no row
matches, otherwise the matching row. -/
def getTodoById (db : DBState) (id : Nat) : Response :=
  match db.rows.find? (fun r => r.id == id) with
  | none => .error 404 "Todo not found"
  | some r => .item 200 r

/-- The storage layer's `INSERT INTO todos (title, completed) VALUES (?, FALSE)`:
a fresh `AUTO_INCREMENT` id, `completed = FALSE`, `created_at` from the
clock.  A title longer than the `VARCHAR(500)` column makes the query
fail (`none`), per MariaDB's default strict mode. -/
def dbInsert (db : DBState) (now : Nat) (title : String) : Option (Item × DBState) :=
  if titleColumnLimit < title.length then none
  else
    let newItem : Item := { id := db.nextId, title := title,
                            completed := false, created_at := now }
    some (newItem, { rows := db.rows ++ [newItem], nextId := db.nextId + 1 })

/-- `POST /api/todos`: reject a missing or whitespace-only title with 400
(`!title || title.trim() === ''`), otherwise insert `title.trim()` and
answer 201 with the new item; a storage-layer failure answers 500. -/
def createTodo (db : DBState) (now : Nat) (title? : Option String) :
    Response × DBState :=
  match title? with
  | none => (.error 400 "Title is required", db)
  | some title =>
    if jsTrim title = "" then (.error 400 "Title is required", db)
    else
      match dbInsert db now (jsTrim title) with
      | none => (.error 500 "Failed to create todo", db)
      | some (newTodo, db') => (.item 201 newTodo, db')

/-- The storage layer's dynamically built
`UPDATE todos SET <title = ?,> <completed = ?> WHERE id = ?`: each field
that was pushed onto `updates` is set on every row whose id matches.  A
new title longer than the `VARCHAR(500)` column makes the query fail
(`none`), per MariaDB's default strict mode. -/
def dbUpdate (db : DBState) (id : Nat) (newTitle : Option String)
    (newCompleted : Option Bool) : Option DBState :=
  if titleColumnLimit < (newTitle.getD "").length then none
  else
    some { db with rows := db.rows.map (fun r =>
      if r.id == id then
        { r with title := newTitle.getD r.title,
                 completed := newCompleted.getD r.completed }
      else r) }

/-- The tail of the PUT handler after validation: run the UPDATE, then
re-fetch the row (`SELECT ... WHERE id = ?`) and answer 200 with it; a
failed query — or a missing row on re-fetch, where `rows[0]` would
throw — answers 500. -/
def runUpdate (db : DBState) (id : Nat) (newTitle : Option String)
    (newCompleted : Option Bool) : Response × DBState :=
  match dbUpdate db id newTitle newCompleted with
  | none => (.error 500 "Failed to update todo", db)
  | some db' =>
    match db'.rows.find? (fun r => r.id == id) with
    | none => (.error 500 "Failed to update todo", db')
    | some r => (.item 200 r, db')

/-- `PUT /api/todos/:id`: 404 when no row has the id; 400 when a title is
supplied but empty after trimming (`title.trim() === ''`); 400 when
neither field is supplied (`updates.length === 0`); otherwise run the
UPDATE with `title.trim()` and/or the flag. -/
def updateTodo (db : DBState) (id : Nat) (title? : Option String)
    (completed? : Option Bool) : Response × DBState :=
  match db.rows.find? (fun r => r.id == id) with
  | none => (.error 404 "Todo not found", db)
  | some _ =>
    match title? with
    | some title =>
      if jsTrim title = "" then (.error 400 "Title cannot be empty", db)
      else runUpdate db id (some (jsTrim title)) completed?
    | none =>
      match completed? with
      | some c => runUpdate db id none (some c)
      | none => (.error 400 "No fields to update", db)

/-- `DELETE /api/todos/:id`: `DELETE FROM todos WHERE id = ?`; 404 when
`affectedRows === 0`, otherwise a success message. -/
def deleteTodo (db : DBState) (id : Nat) : Response × DBState :=
  let remaining := db.rows.filter (fun r => !(r.id == id))
  let affectedRows := db.rows.length - remaining.length
  let db' : DBState := { db with rows := remaining }
  if affectedRows = 0 then (.error 404 "Todo not found", db')
  else (.message 200 "Todo deleted successfully", db')

/-- The client's filter enum (`currentFilter` ranges over
`'all' | 'active' | 'completed'`). -/
inductive Filter where
  | all | active | completed
deriving DecidableEq, Repr

/-- `getFilteredTodos` from `app.js`: restrict the local mirror by the
current filter. -/
def getFilteredTodos (todos : List Item) (currentFilter : Filter) : List Item :=
  match currentFilter with
  | .active => todos.filter (fun t => !t.completed)
  | .completed => todos.filter (fun t => t.completed)
  | .all => todos

/-- The identifier discipline of `AUTO_INCREMENT`: every stored id is
below the next one to be handed out. -/
abbrev IdInv (db : DBState) : Prop :=
  ∀ r ∈ db.rows, r.id < db.nextId

/-- Stored ids are pairwise distinct (`id INT ... PRIMARY KEY`). -/
abbrev IdNodup (db : DBState) : Prop :=
  (db.rows.map Item.id).Nodup

/-- The label invariant of the data model: every stored title is
non-empty after trimming and fits the `VARCHAR(500)` column. -/
abbrev TitleInv (db : DBState) : Prop :=
  ∀ r ∈ db.rows, jsTrim r.title ≠ "" ∧ r.title.length ≤ titleColumnLimit

/-- A concrete one-row store used to exercise the contracts. -/
def db1 : DBState :=
  { rows := [⟨1, "old", false, 0⟩], nextId := 2 }

/-- A 501-character title: it passes the handlers' trim check but
overflows the `VARCHAR(500)` column. -/
def longTitle : String := ⟨List.replicate 501 'a'⟩

/-! ## Properties of trimming -/

theorem dropWhile_head?_false {α : Type} (p : α → Bool) (l : List α) {c : α}
    (h : (l.dropWhile p).head? = some c) : p c = false := by
  induction l with
  | nil => simp [List.dropWhile] at h
  | cons a t ih =>
    rw [List.dropWhile_cons] at h
    split at h
    · exact ih h
    · simp only [List.head?_cons, Option.some.injEq] at h
      subst h
      rename_i hp
      simpa using hp

theorem dropWhile_eq_self_of_head? {α : Type} (p : α → Bool) (l : List α)
    (h : ∀ c, l.head? = some c → p c = false) : l.dropWhile p = l := by
  cases l with
  | nil => rfl
  | cons a t =>
    rw [List.dropWhile_cons]
    simp [h a rfl]

theorem getLast?_dropWhile {α : Type} (p : α → Bool) (l : List α)
    (h : l.dropWhile p ≠ []) : (l.dropWhile p).getLast? = l.getLast? := by
  induction l with
  | nil => simp [List.dropWhile] at h
  | cons a t ih =>
    by_cases hp : p a = true
    · rw [List.dropWhile_cons, if_pos hp] at h ⊢
      have ht : t ≠ [] := by
        intro he
        subst he
        simp [List.dropWhile] at h
      obtain ⟨b, u, rfl⟩ := List.exists_cons_of_ne_nil ht
      rw [List.getLast?_cons_cons]
      exact ih h
    · rw [List.dropWhile_cons, if_neg hp]

theorem trimChars_head? (l : List Char) {c : Char}
    (h : (trimChars l).head? = some c) : c.isWhitespace = false := by
  unfold trimChars at h
  rw [List.head?_reverse] at h
  have hne : (l.dropWhile Char.isWhitespace).reverse.dropWhile Char.isWhitespace ≠ [] := by
    intro he
    rw [he] at h
    simp at h
  rw [getLast?_dropWhile _ _ hne, List.getLast?_reverse] at h
  exact dropWhile_head?_false _ _ h

theorem trimChars_getLast? (l : List Char) {c : Char}
    (h : (trimChars l).getLast? = some c) : c.isWhitespace = false := by
  unfold trimChars at h
  rw [List.getLast?_reverse] at h
  exact dropWhile_head?_false _ _ h

theorem trimChars_idem (l : List Char) : trimChars (trimChars l) = trimChars l := by
  have h1 : (trimChars l).dropWhile Char.isWhitespace = trimChars l :=
    dropWhile_eq_self_of_head? _ _ (fun c hc => trimChars_head? l hc)
  have h2 : (trimChars l).reverse.dropWhile Char.isWhitespace = (trimChars l).reverse := by
    apply dropWhile_eq_self_of_head?
    intro c hc
    rw [List.head?_reverse] at hc
    exact trimChars_getLast? l hc
  calc trimChars (trimChars l)
      = (((trimChars l).dropWhile Char.isWhitespace).reverse.dropWhile
          Char.isWhitespace).reverse := rfl
    _ = trimChars l := by rw [h1, h2, List.reverse_reverse]

theorem jsTrim_idem (s : String) : jsTrim (jsTrim s) = jsTrim s := by
  unfold jsTrim
  exact congrArg String.mk (trimChars_idem s.data)

theorem jsTrim_length (s : String) : (jsTrim s).length = (trimChars s.data).length := rfl

/-! ## Claim C6: the active filter -/

/-- C6: with the `active` filter selected, the filtered list never
includes an item whose completion flag is true, and it includes every
item of the mirror whose flag is false. -/
theorem active_filter_excludes_completed (todos : List Item) :
    (∀ t ∈ getFilteredTodos todos Filter.active, t.completed = false) ∧
    (∀ t ∈ todos, t.completed = false → t ∈ getFilteredTodos todos Filter.active) := by
  constructor
  · intro t ht
    have := (List.mem_filter.mp ht).2
    simpa using this
  · intro t ht hc
    exact List.mem_filter.mpr ⟨ht, by simp [hc]⟩

theorem active_filter_excludes_completed_witness :
    ((⟨1, "a", false, 0⟩ : Item) ∈
      getFilteredTodos [⟨1, "a", false, 0⟩, ⟨2, "b", true, 0⟩] Filter.active) ∧
    ∀ t ∈ getFilteredTodos [⟨1, "a", false, 0⟩, ⟨2, "b", true, 0⟩] Filter.active,
      t.completed = false :=
  ⟨(active_filter_excludes_completed [⟨1, "a", false, 0⟩, ⟨2, "b", true, 0⟩]).2
      ⟨1, "a", false, 0⟩ (by decide) rfl,
   (active_filter_excludes_completed [⟨1, "a", false, 0⟩, ⟨2, "b", true, 0⟩]).1⟩

/-! ## Claim C3: create-side validation -/

/-- C3: a create request is answered with the 400 validation error
exactly when the supplied title is missing, empty, or whitespace-only;
and in that case the store is left unchanged. -/
theorem create_validation (db : DBState) (now : Nat) (title? : Option String) :
    ((createTodo db now title?).1 = .error 400 "Title is required" ↔
      title? = none ∨ ∃ t, title? = some t ∧ jsTrim t = "") ∧
    ((createTodo db now title?).1 = .error 400 "Title is required" →
      (createTodo db now title?).2 = db) := by
  cases title? with
  | none => simp [createTodo]
  | some t =>
    by_cases h : jsTrim t = ""
    · simp [createTodo, h]
    · cases hins : dbInsert db now (jsTrim t) with
      | none => simp [createTodo, h, hins]
      | some p => simp [createTodo, h, hins]

theorem create_validation_witness :
    (createTodo db1 5 (some "   ")).1 = .error 400 "Title is required" ∧
    (createTodo db1 5 (some "   ")).2 = db1 :=
  ⟨(create_validation db1 5 (some "   ")).1.mpr (Or.inr ⟨"   ", rfl, by decide⟩),
   (create_validation db1 5 (some "   ")).2 (by decide)⟩

/-! ## Claim C4: delete -/

/-- C4: deleting an absent id is answered 404 and leaves the store
unchanged; deleting a present id succeeds and removes the item. -/
theorem delete_contract (db : DBState) (id : Nat) :
    ((∀ r ∈ db.rows, r.id ≠ id) →
      (deleteTodo db id).1 = .error 404 "Todo not found" ∧ (deleteTodo db id).2 = db) ∧
    ((∃ r ∈ db.rows, r.id = id) →
      (deleteTodo db id).1 = .message 200 "Todo deleted successfully" ∧
      (deleteTodo db id).2.rows = db.rows.filter (fun r => !(r.id == id)) ∧
      ∀ r ∈ (deleteTodo db id).2.rows, r.id ≠ id) := by
  constructor
  · intro habs
    have hfil : db.rows.filter (fun r => !(r.id == id)) = db.rows := by
      apply List.filter_eq_self.mpr
      intro r hr
      simpa using habs r hr
    constructor
    · simp [deleteTodo, hfil]
    · simp [deleteTodo, hfil]
  · rintro ⟨r, hr, hrid⟩
    have hlt : (db.rows.filter (fun r => !(r.id == id))).length < db.rows.length := by
      apply List.length_filter_lt_length_iff_exists.mpr
      exact ⟨r, hr, by simp [hrid]⟩
    have hne : db.rows.length - (db.rows.filter (fun r => !(r.id == id))).length ≠ 0 :=
      Nat.sub_ne_zero_of_lt hlt
    refine ⟨by simp [deleteTodo, hne], by simp [deleteTodo, hne], ?_⟩
    intro r' hr'
    rw [show (deleteTodo db id).2.rows = db.rows.filter (fun r => !(r.id == id)) from by
      simp [deleteTodo, hne]] at hr'
    have := (List.mem_filter.mp hr').2
    simpa using this

theorem delete_contract_witness :
    ((deleteTodo db1 7).1 = .error 404 "Todo not found" ∧ (deleteTodo db1 7).2 = db1) ∧
    ((deleteTodo db1 1).1 = .message 200 "Todo deleted successfully" ∧
      (deleteTodo db1 1).2.rows = []) :=
  ⟨(delete_contract db1 7).1 (by decide),
   ⟨((delete_contract db1 1).2 ⟨⟨1, "old", false, 0⟩, by decide, rfl⟩).1,
    by
      rw [((delete_contract db1 1).2 ⟨⟨1, "old", false, 0⟩, by decide, rfl⟩).2.1]
      decide⟩⟩

/-! ## Claim C9: get-by-id -/

/-- C9: a get-by-id request is answered 404 exactly when no stored item
has the requested id; otherwise it is answered 200 with exactly the
stored item carrying that id. -/
theorem get_by_id_contract (db : DBState) (id : Nat) (hnd : IdNodup db) :
    ((getTodoById db id = .error 404 "Todo not found") ↔ ∀ r ∈ db.rows, r.id ≠ id) ∧
    (∀ r ∈ db.rows, r.id = id → getTodoById db id = .item 200 r) := by
  cases hf : db.rows.find? (fun r => r.id == id) with
  | none =>
    have habs : ∀ r ∈ db.rows, r.id ≠ id := by
      intro r hr
      have := List.find?_eq_none.mp hf r hr
      simpa using this
    constructor
    · simp only [getTodoById, hf]
      exact ⟨fun _ => habs, fun _ => trivial⟩
    · intro r hr hrid
      exact absurd hrid (habs r hr)
  | some r0 =>
    have hr0mem : r0 ∈ db.rows := List.mem_of_find?_eq_some hf
    have hr0id : r0.id = id := by
      have := List.find?_some hf
      simpa using this
    constructor
    · simp only [getTodoById, hf]
      constructor
      · intro h
        exact absurd h (by simp)
      · intro h
        exact absurd hr0id (h r0 hr0mem)
    · intro r hr hrid
      have : r0 = r :=
        List.inj_on_of_nodup_map hnd hr0mem hr (by rw [hr0id, hrid])
      simp only [getTodoById, hf, this]

theorem get_by_id_contract_witness :
    getTodoById db1 1 = .item 200 ⟨1, "old", false, 0⟩ ∧
    (getTodoById db1 7 = .error 404 "Todo not found") :=
  ⟨(get_by_id_contract db1 1 (by decide)).2 ⟨1, "old", false, 0⟩ (by decide) rfl,
   (get_by_id_contract db1 7 (by decide)).1.mpr (by decide)⟩

/-! ## Claim C5: list-all ordering -/

/-- C5: list-all answers 200 with all stored items, arranged so that any
item appearing earlier in the list was created no earlier than any item
appearing after it (descending creation order). -/
theorem list_all_newest_first (db : DBState) :
    ∃ l, getTodos db = .items 200 l ∧ l.Perm db.rows ∧
      l.Pairwise (fun a b => b.created_at ≤ a.created_at) := by
  refine ⟨db.rows.mergeSort (fun a b => decide (b.created_at ≤ a.created_at)), rfl,
    List.mergeSort_perm db.rows _, ?_⟩
  have := @List.sorted_mergeSort Item
    (fun a b : Item => decide (b.created_at ≤ a.created_at))
    (fun a b c hab hbc => by
      simp only [decide_eq_true_eq] at hab hbc ⊢
      exact le_trans hbc hab)
    (fun a b => by
      simp only [Bool.or_eq_true, decide_eq_true_eq]
      exact Nat.le_total b.created_at a.created_at)
    db.rows
  exact this.imp (fun h => by simpa using h)

/-! ## Claim C2: create success -/

set_option maxRecDepth 4000 in
/-- C2 (counterexample): a create request whose label is non-empty after
trimming but 501 characters long is not answered 201: the INSERT
overflows the `VARCHAR(500)` column and the handler answers 500. -/
theorem create_501_char_label_fails :
    jsTrim longTitle ≠ "" ∧
    (createTodo db1 5 (some longTitle)).1 = .error 500 "Failed to create todo" :=
  ⟨by decide, by decide⟩

/-- C2 (amended): a create request whose label is non-empty after
trimming and fits the 500-character column succeeds with 201 and returns
an item with a fresh integer id and completion flag false. -/
theorem create_success (db : DBState) (now : Nat) (t : String)
    (h1 : jsTrim t ≠ "") (h2 : (jsTrim t).length ≤ titleColumnLimit)
    (hid : IdInv db) :
    ∃ it, (createTodo db now (some t)).1 = .item 201 it ∧
      it.completed = false ∧ it.id = db.nextId ∧
      (∀ r ∈ db.rows, r.id ≠ it.id) ∧
      it ∈ (createTodo db now (some t)).2.rows := by
  have hguard : ¬ titleColumnLimit < (jsTrim t).length := Nat.not_lt.mpr h2
  refine ⟨⟨db.nextId, jsTrim t, false, now⟩, ?_, rfl, rfl, ?_, ?_⟩
  · simp [createTodo, h1, dbInsert, hguard]
  · intro r hr
    exact Nat.ne_of_lt (hid r hr)
  · simp [createTodo, h1, dbInsert, hguard]

theorem create_success_witness :
    ∃ it, (createTodo db1 5 (some "  Buy milk  ")).1 = .item 201 it ∧
      it.completed = false ∧ it.id = db1.nextId ∧
      (∀ r ∈ db1.rows, r.id ≠ it.id) ∧
      it ∈ (createTodo db1 5 (some "  Buy milk  ")).2.rows :=
  create_success db1 5 "  Buy milk  " (by decide) (by decide) (by decide)

/-! ## Inversion lemmas for the UPDATE path -/

theorem dbUpdate_some {db : DBState} {id : Nat} {nt : Option String}
    {nc : Option Bool} {db' : DBState} (h : dbUpdate db id nt nc = some db') :
    (nt.getD "").length ≤ titleColumnLimit ∧
    db'.rows = db.rows.map (fun r =>
      if r.id == id then
        { r with title := nt.getD r.title, completed := nc.getD r.completed }
      else r) ∧
    db'.nextId = db.nextId := by
  unfold dbUpdate at h
  split at h
  · exact absurd h (by simp)
  · rename_i hguard
    injection h with h
    subst h
    exact ⟨Nat.not_lt.mp hguard, rfl, rfl⟩

/-- A successful PUT went through `dbUpdate` with the trimmed title
and/or the flag (and only supplied fields), and the returned item is the
re-fetched row. -/
theorem updateTodo_success_inv {db : DBState} {id : Nat} {title? : Option String}
    {completed? : Option Bool} {it : Item}
    (h : (updateTodo db id title? completed?).1 = .item 200 it) :
    ∃ nt nc, (title? = none → nt = (none : Option String)) ∧
      (completed? = none → nc = (none : Option Bool)) ∧
      (∀ t, title? = some t → nt = some (jsTrim t)) ∧
      (completed? = nc ∨ title? = none) ∧
      dbUpdate db id nt nc = some (updateTodo db id title? completed?).2 ∧
      (updateTodo db id title? completed?).2.rows.find? (fun r => r.id == id) = some it := by
  cases hf : db.rows.find? (fun r => r.id == id) with
  | none => simp [updateTodo, hf] at h
  | some r0 =>
    cases title? with
    | some t =>
      by_cases ht : jsTrim t = ""
      · simp [updateTodo, hf, ht] at h
      · simp only [updateTodo, hf, if_neg ht] at h ⊢
        cases hdu : dbUpdate db id (some (jsTrim t)) completed? with
        | none => simp [runUpdate, hdu] at h
        | some db' =>
          cases hf2 : db'.rows.find? (fun r => r.id == id) with
          | none => simp [runUpdate, hdu, hf2] at h
          | some r =>
            have hsnd : (runUpdate db id (some (jsTrim t)) completed?).2 = db' := by
              simp [runUpdate, hdu, hf2]
            have hfst : (runUpdate db id (some (jsTrim t)) completed?).1 = .item 200 r := by
              simp [runUpdate, hdu, hf2]
            rw [hfst] at h
            have hr : r = it := by
              simpa [Response.item.injEq] using h
            subst hr
            exact ⟨some (jsTrim t), completed?, by simp, fun hc => hc,
              fun t' ht' => by simp_all, Or.inl rfl, by rw [hsnd]; exact hdu,
              by rw [hsnd]; exact hf2⟩
    | none =>
      cases completed? with
      | none => simp [updateTodo, hf] at h
      | some c =>
        simp only [updateTodo, hf] at h ⊢
        cases hdu : dbUpdate db id none (some c) with
        | none => simp [runUpdate, hdu] at h
        | some db' =>
          cases hf2 : db'.rows.find? (fun r => r.id == id) with
          | none => simp [runUpdate, hdu, hf2] at h
          | some r =>
            have hsnd : (runUpdate db id none (some c)).2 = db' := by
              simp [runUpdate, hdu, hf2]
            have hfst : (runUpdate db id none (some c)).1 = .item 200 r := by
              simp [runUpdate, hdu, hf2]
            rw [hfst] at h
            have hr : r = it := by
              simpa [Response.item.injEq] using h
            subst hr
            exact ⟨none, some c, fun _ => rfl, by simp, by simp, Or.inl rfl,
              by rw [hsnd]; exact hdu, by rw [hsnd]; exact hf2⟩

/-- Every state the PUT handler can leave behind is either the input
state or the image of a `dbUpdate` whose fields respect the request. -/
theorem updateTodo_state_cases (db : DBState) (id : Nat) (title? : Option String)
    (completed? : Option Bool) :
    (updateTodo db id title? completed?).2 = db ∨
    ∃ nt nc, (∀ t, title? = some t → nt = some (jsTrim t) ∧ jsTrim t ≠ "") ∧
      (title? = none → nt = (none : Option String)) ∧
      dbUpdate db id nt nc = some (updateTodo db id title? completed?).2 := by
  cases hf : db.rows.find? (fun r => r.id == id) with
  | none => left; simp [updateTodo, hf]
  | some r0 =>
    cases title? with
    | some t =>
      by_cases ht : jsTrim t = ""
      · left; simp [updateTodo, hf, ht]
      · simp only [updateTodo, hf, if_neg ht]
        cases hdu : dbUpdate db id (some (jsTrim t)) completed? with
        | none => left; simp [runUpdate, hdu]
        | some db' =>
          right
          refine ⟨some (jsTrim t), completed?, fun t' ht' => by simp_all, by simp, ?_⟩
          cases hf2 : db'.rows.find? (fun r => r.id == id) with
          | none => rw [show (runUpdate db id (some (jsTrim t)) completed?).2 = db' from by
              simp [runUpdate, hdu, hf2]]; exact hdu
          | some r => rw [show (runUpdate db id (some (jsTrim t)) completed?).2 = db' from by
              simp [runUpdate, hdu, hf2]]; exact hdu
    | none =>
      cases completed? with
      | none => left; simp [updateTodo, hf]
      | some c =>
        simp only [updateTodo, hf]
        cases hdu : dbUpdate db id none (some c) with
        | none => left; simp [runUpdate, hdu]
        | some db' =>
          right
          refine ⟨none, some c, by simp, fun _ => rfl, ?_⟩
          cases hf2 : db'.rows.find? (fun r => r.id == id) with
          | none => rw [show (runUpdate db id none (some c)).2 = db' from by
              simp [runUpdate, hdu, hf2]]; exact hdu
          | some r => rw [show (runUpdate db id none (some c)).2 = db' from by
              simp [runUpdate, hdu, hf2]]; exact hdu

theorem dbInsert_some {db : DBState} {now : Nat} {title : String} {it : Item}
    {db' : DBState} (h : dbInsert db now title = some (it, db')) :
    title.length ≤ titleColumnLimit ∧ it = ⟨db.nextId, title, false, now⟩ ∧
    db'.rows = db.rows ++ [it] ∧ db'.nextId = db.nextId + 1 := by
  unfold dbInsert at h
  split at h
  · exact absurd h (by simp)
  · rename_i hguard
    injection h with h
    injection h with h1 h2
    subst h1
    subst h2
    exact ⟨Nat.not_lt.mp hguard, rfl, rfl, rfl⟩

/-- The rows left behind by the DELETE handler, on either branch. -/
theorem deleteTodo_snd_rows (db : DBState) (id : Nat) :
    (deleteTodo db id).2.rows = db.rows.filter (fun r => !(r.id == id)) := by
  unfold deleteTodo
  dsimp only
  split <;> rfl

/-! ## Claim C8: the label invariant -/

/-- C8: if every stored label is non-empty after trimming and at most
500 characters, the same holds after a create, an update, and a delete:
the handlers enforce non-emptiness of the trimmed label, and the
`VARCHAR(500)` column bounds its length. -/
theorem title_invariant_preserved (db : DBState) (now : Nat) (id : Nat)
    (title? : Option String) (completed? : Option Bool) (h : TitleInv db) :
    TitleInv (createTodo db now title?).2 ∧
    TitleInv (updateTodo db id title? completed?).2 ∧
    TitleInv (deleteTodo db id).2 := by
  refine ⟨?_, ?_, ?_⟩
  · cases title? with
    | none => simpa [createTodo] using h
    | some t =>
      by_cases ht : jsTrim t = ""
      · simpa [createTodo, ht] using h
      · cases hins : dbInsert db now (jsTrim t) with
        | none => simpa [createTodo, ht, hins] using h
        | some p =>
          obtain ⟨it, db'⟩ := p
          obtain ⟨hlen, hit, hrows, -⟩ := dbInsert_some hins
          have hsnd : (createTodo db now (some t)).2 = db' := by
            simp [createTodo, ht, hins]
          rw [hsnd]
          intro r hr
          rw [hrows] at hr
          rcases List.mem_append.mp hr with hr | hr
          · exact h r hr
          · have : r = it := by simpa using hr
            subst this
            rw [hit]
            exact ⟨by rw [jsTrim_idem]; exact ht, hlen⟩
  · rcases updateTodo_state_cases db id title? completed? with heq | ⟨nt, nc, hnt, hntn, hdu⟩
    · rw [heq]; exact h
    · obtain ⟨hlen, hrows, -⟩ := dbUpdate_some hdu
      intro r' hr'
      rw [hrows] at hr'
      obtain ⟨r, hr, rfl⟩ := List.mem_map.mp hr'
      by_cases hc : (r.id == id) = true
      · rw [if_pos hc]
        cases nt with
        | none => exact ⟨(h r hr).1, (h r hr).2⟩
        | some s =>
          cases htt : title? with
          | none => exact absurd (hntn htt) (by simp)
          | some t =>
            obtain ⟨hs, hne⟩ := hnt t htt
            have hst : s = jsTrim t := by simpa using hs
            subst hst
            exact ⟨by simp only [Option.getD_some, jsTrim_idem]; exact hne,
              by simpa using hlen⟩
      · rw [if_neg hc]
        exact h r hr
  · intro r hr
    rw [deleteTodo_snd_rows] at hr
    exact h r (List.mem_filter.mp hr).1

theorem title_invariant_preserved_witness :
    TitleInv (createTodo db1 5 (some " x ")).2 ∧
    TitleInv (updateTodo db1 1 (some " x ") (some true)).2 ∧
    TitleInv (deleteTodo db1 1).2 :=
  title_invariant_preserved db1 5 1 (some " x ") (some true) (by decide)

/-! ## Claim C10: labels are stored trimmed -/

/-- C10: a successful create, and a successful update that supplies a
label, store and return the supplied label with surrounding whitespace
removed; hence creating from a label and from its trimmed form yields
the same stored label. -/
theorem stored_label_is_trimmed (db : DBState) (now : Nat) (id : Nat)
    (t : String) (completed? : Option Bool) :
    (∀ it, (createTodo db now (some t)).1 = .item 201 it →
      it.title = jsTrim t ∧ it ∈ (createTodo db now (some t)).2.rows) ∧
    (∀ it, (updateTodo db id (some t) completed?).1 = .item 200 it →
      it.title = jsTrim t ∧ it ∈ (updateTodo db id (some t) completed?).2.rows) ∧
    (∀ it it', (createTodo db now (some t)).1 = .item 201 it →
      (createTodo db now (some (jsTrim t))).1 = .item 201 it' →
      it'.title = it.title) := by
  have hcreate : ∀ s it, (createTodo db now (some s)).1 = .item 201 it →
      it.title = jsTrim s ∧ it ∈ (createTodo db now (some s)).2.rows := by
    intro s it h
    by_cases hs : jsTrim s = ""
    · simp [createTodo, hs] at h
    · cases hins : dbInsert db now (jsTrim s) with
      | none => simp [createTodo, hs, hins] at h
      | some p =>
        obtain ⟨it0, db'⟩ := p
        obtain ⟨hlen, hit0, hrows, -⟩ := dbInsert_some hins
        have hfst : (createTodo db now (some s)).1 = .item 201 it0 := by
          simp [createTodo, hs, hins]
        have hsnd : (createTodo db now (some s)).2 = db' := by
          simp [createTodo, hs, hins]
        rw [hfst] at h
        have : it0 = it := by simpa [Response.item.injEq] using h
        subst this
        refine ⟨by rw [hit0], ?_⟩
        rw [hsnd, hrows]
        simp
  refine ⟨hcreate t, ?_, ?_⟩
  · intro it h
    obtain ⟨nt, nc, -, -, hnts, -, hdu, hfind⟩ := updateTodo_success_inv h
    have hnt : nt = some (jsTrim t) := hnts t rfl
    subst hnt
    obtain ⟨hlen, hrows, -⟩ := dbUpdate_some hdu
    have hmem : it ∈ (updateTodo db id (some t) completed?).2.rows :=
      List.mem_of_find?_eq_some hfind
    refine ⟨?_, hmem⟩
    have hidit : (it.id == id) = true := by
      simpa using List.find?_some hfind
    rw [hrows] at hmem
    obtain ⟨r, hr, hfr⟩ := List.mem_map.mp hmem
    by_cases hc : (r.id == id) = true
    · rw [if_pos hc] at hfr
      rw [← hfr]
      exact rfl
    · rw [if_neg hc] at hfr
      rw [← hfr] at hidit
      exact absurd hidit (by simpa using hc)
  · intro it it' h h'
    have h1 := (hcreate t it h).1
    have h2 := (hcreate (jsTrim t) it' h').1
    rw [h1, h2, jsTrim_idem]

theorem stored_label_is_trimmed_witness :
    ((createTodo db1 5 (some "  Buy milk  ")).1 =
      .item 201 ⟨2, "Buy milk", false, 5⟩) ∧
    (⟨2, "Buy milk", false, 5⟩ : Item).title = jsTrim "  Buy milk  " :=
  ⟨by decide,
   ((stored_label_is_trimmed db1 5 1 "  Buy milk  " none).1
      ⟨2, "Buy milk", false, 5⟩ (by decide)).1⟩

/-! ## Claim C1: the PUT contract -/

set_option maxRecDepth 4000 in
/-- C1 (counterexample): an update addressing an existing item with a
supplied label that is non-empty after trimming but 501 characters long
does not succeed: the UPDATE overflows the `VARCHAR(500)` column and the
handler answers 500. -/
theorem update_501_char_label_fails :
    ((⟨1, "old", false, 0⟩ : Item) ∈ db1.rows) ∧
    (⟨1, "old", false, 0⟩ : Item).id = 1 ∧
    jsTrim longTitle ≠ "" ∧
    (updateTodo db1 1 (some longTitle) none).1 = .error 500 "Failed to update todo" :=
  ⟨by decide, rfl, by decide, by decide⟩

theorem exists_find?_matching {l : List Item} {id : Nat} (r : Item)
    (hr : r ∈ l) (hrid : r.id = id) :
    ∃ it, l.find? (fun x => x.id == id) = some it ∧ it.id = id ∧ it ∈ l := by
  have h1 : (l.find? (fun x => x.id == id)).isSome :=
    List.find?_isSome.mpr ⟨r, hr, by simp [hrid]⟩
  obtain ⟨it, hit⟩ := Option.isSome_iff_exists.mp h1
  exact ⟨it, hit, by simpa using List.find?_some hit, List.mem_of_find?_eq_some hit⟩

/-- C1 (amended): an update is answered 404 when the id is absent, 400
when a supplied label trims to empty, 400 when neither field is
supplied; otherwise — provided a supplied label also fits the
500-character column — it succeeds and returns the updated item. -/
theorem update_contract (db : DBState) (id : Nat) (title? : Option String)
    (completed? : Option Bool) :
    ((∀ r ∈ db.rows, r.id ≠ id) →
      (updateTodo db id title? completed?).1 = .error 404 "Todo not found") ∧
    ((∃ r ∈ db.rows, r.id = id) → ∀ t, title? = some t → jsTrim t = "" →
      (updateTodo db id title? completed?).1 = .error 400 "Title cannot be empty") ∧
    ((∃ r ∈ db.rows, r.id = id) → title? = none → completed? = none →
      (updateTodo db id title? completed?).1 = .error 400 "No fields to update") ∧
    ((∃ r ∈ db.rows, r.id = id) →
      (∀ t, title? = some t → jsTrim t ≠ "" ∧ (jsTrim t).length ≤ titleColumnLimit) →
      (title? ≠ none ∨ completed? ≠ none) →
      ∃ it, (updateTodo db id title? completed?).1 = .item 200 it ∧ it.id = id ∧
        it ∈ (updateTodo db id title? completed?).2.rows) := by
  refine ⟨?_, ?_, ?_, ?_⟩
  · intro habs
    have hf : db.rows.find? (fun r => r.id == id) = none := by
      apply List.find?_eq_none.mpr
      intro r hr
      simpa using habs r hr
    simp [updateTodo, hf]
  · rintro ⟨r, hr, hrid⟩ t ht htrim
    obtain ⟨r0, hf, -, -⟩ := exists_find?_matching r hr hrid
    subst ht
    simp [updateTodo, hf, htrim]
  · rintro ⟨r, hr, hrid⟩ ht hc
    obtain ⟨r0, hf, -, -⟩ := exists_find?_matching r hr hrid
    subst ht
    subst hc
    simp [updateTodo, hf]
  · rintro ⟨r, hr, hrid⟩ hcond hor
    obtain ⟨r0, hf, hr0id, hr0mem⟩ := exists_find?_matching r hr hrid
    cases title? with
    | some t =>
      obtain ⟨hne, hlen⟩ := hcond t rfl
      have hguard : ¬ titleColumnLimit < ((some (jsTrim t)).getD "").length := by
        simpa using Nat.not_lt.mpr hlen
      have hdu : dbUpdate db id (some (jsTrim t)) completed? =
          some { db with rows := db.rows.map (fun x =>
            if x.id == id then
              { x with title := (some (jsTrim t)).getD x.title,
                       completed := completed?.getD x.completed }
            else x) } := by
        unfold dbUpdate
        rw [if_neg hguard]
      set f := fun x : Item =>
        if x.id == id then
          { x with title := (some (jsTrim t)).getD x.title,
                   completed := completed?.getD x.completed }
        else x with hfdef
      have hfid : (f r0).id = id := by
        rw [hfdef]
        by_cases hc : (r0.id == id) = true
        · simp only [if_pos hc]
          exact hr0id
        · simp only [if_neg hc]
          exact hr0id
      obtain ⟨it, hf2, hitid, hitmem⟩ :=
        exists_find?_matching (f r0) (List.mem_map_of_mem f hr0mem) hfid
      refine ⟨it, ?_, hitid, ?_⟩
      · simp [updateTodo, hf, hne, runUpdate, hdu, hf2]
      · rw [show (updateTodo db id (some t) completed?).2.rows = db.rows.map f from by
          simp [updateTodo, hf, hne, runUpdate, hdu, hf2]]
        exact hitmem
    | none =>
      cases completed? with
      | none =>
        rcases hor with h | h
        · exact absurd rfl h
        · exact absurd rfl h
      | some c =>
        have hdu : dbUpdate db id none (some c) =
            some { db with rows := db.rows.map (fun x =>
              if x.id == id then
                { x with title := (none : Option String).getD x.title,
                         completed := (some c).getD x.completed }
              else x) } := by
          unfold dbUpdate
          rw [if_neg (by simp)]
        set f := fun x : Item =>
          if x.id == id then
            { x with title := (none : Option String).getD x.title,
                     completed := (some c).getD x.completed }
          else x with hfdef
        have hfid : (f r0).id = id := by
          rw [hfdef]
          by_cases hc : (r0.id == id) = true
          · simp only [if_pos hc]
            exact hr0id
          · simp only [if_neg hc]
            exact hr0id
        obtain ⟨it, hf2, hitid, hitmem⟩ :=
          exists_find?_matching (f r0) (List.mem_map_of_mem f hr0mem) hfid
        refine ⟨it, ?_, hitid, ?_⟩
        · simp [updateTodo, hf, runUpdate, hdu, hf2]
        · rw [show (updateTodo db id none (some c)).2.rows = db.rows.map f from by
            simp [updateTodo, hf, runUpdate, hdu, hf2]]
          exact hitmem

theorem update_contract_witness :
    (updateTodo db1 7 (some "x") none).1 = .error 404 "Todo not found" ∧
    (updateTodo db1 1 (some "  ") none).1 = .error 400 "Title cannot be empty" ∧
    (updateTodo db1 1 none none).1 = .error 400 "No fields to update" ∧
    ∃ it, (updateTodo db1 1 none (some true)).1 = .item 200 it ∧ it.id = 1 ∧
      it ∈ (updateTodo db1 1 none (some true)).2.rows :=
  ⟨(update_contract db1 7 (some "x") none).1 (by decide),
   (update_contract db1 1 (some "  ") none).2.1
     ⟨⟨1, "old", false, 0⟩, by decide, rfl⟩ "  " rfl (by decide),
   (update_contract db1 1 none none).2.2.1
     ⟨⟨1, "old", false, 0⟩, by decide, rfl⟩ rfl rfl,
   (update_contract db1 1 none (some true)).2.2.2
     ⟨⟨1, "old", false, 0⟩, by decide, rfl⟩
     (fun t ht => Option.noConfusion ht) (Or.inr (by simp))⟩

/-! ## Claim C7: the frame of a successful update -/

/-- C7: a successful update leaves the id and creation timestamp of
every row (the addressed one included) unchanged, leaves every row with
a different id entirely unchanged, and leaves unsupplied fields of the
addressed row unchanged. -/
theorem update_frame (db : DBState) (id : Nat) (title? : Option String)
    (completed? : Option Bool)
    (hsucc : ∃ it, (updateTodo db id title? completed?).1 = .item 200 it) :
    (updateTodo db id title? completed?).2.nextId = db.nextId ∧
    (updateTodo db id title? completed?).2.rows.length = db.rows.length ∧
    ∀ i (hi : i < db.rows.length)
      (hi' : i < (updateTodo db id title? completed?).2.rows.length),
      ((updateTodo db id title? completed?).2.rows[i].id = db.rows[i].id ∧
       (updateTodo db id title? completed?).2.rows[i].created_at =
         db.rows[i].created_at ∧
       (db.rows[i].id ≠ id →
         (updateTodo db id title? completed?).2.rows[i] = db.rows[i]) ∧
       (title? = none →
         (updateTodo db id title? completed?).2.rows[i].title = db.rows[i].title) ∧
       (completed? = none →
         (updateTodo db id title? completed?).2.rows[i].completed =
           db.rows[i].completed)) := by
  obtain ⟨it, h⟩ := hsucc
  obtain ⟨nt, nc, hntn, hncn, -, -, hdu, -⟩ := updateTodo_success_inv h
  obtain ⟨hlen, hrows, hnext⟩ := dbUpdate_some hdu
  refine ⟨hnext, by rw [hrows]; exact List.length_map _ _, ?_⟩
  intro i hi hi'
  have hget : (updateTodo db id title? completed?).2.rows[i] =
      (if db.rows[i].id == id then
        { db.rows[i] with title := nt.getD db.rows[i].title,
                          completed := nc.getD db.rows[i].completed }
      else db.rows[i]) := by
    have hi'' : i < (db.rows.map (fun r =>
        if r.id == id then
          { r with title := nt.getD r.title, completed := nc.getD r.completed }
        else r)).length := by
      rw [← hrows]
      exact hi'
    calc (updateTodo db id title? completed?).2.rows[i]
        = (db.rows.map (fun r =>
            if r.id == id then
              { r with title := nt.getD r.title, completed := nc.getD r.completed }
            else r))[i] := by
          congr 1
        _ = _ := List.getElem_map _
  rw [hget]
  by_cases hc : (db.rows[i].id == id) = true
  · rw [if_pos hc]
    refine ⟨rfl, rfl, ?_, ?_, ?_⟩
    · intro hne
      exact absurd (by simpa using hc) hne
    · intro htn
      rw [hntn htn]
      exact rfl
    · intro hcn
      rw [hncn hcn]
      exact rfl
  · rw [if_neg hc]
    exact ⟨rfl, rfl, fun _ => rfl, fun _ => rfl, fun _ => rfl⟩

theorem update_frame_witness :
    (updateTodo db1 1 (some " x ") (some true)).2.rows.length = db1.rows.length :=
  (update_frame db1 1 (some " x ") (some true)
    ⟨⟨1, "x", true, 0⟩, by decide⟩).2.1

end TodoApp
